import Mathlib

/-!
Verification of the PyQT5-LibraryApplication persistence layer
(`QibLibrary/library_connectors.py`, class `SQLiteLibraryConnector`).

The SQLite database is embedded as an explicit state (`DB`) of five tables,
each a list of rows, exactly mirroring the schema created by `_INIT_SCRIPT`:
`books(title, author, year)` with primary key on the full triple and a
`CHECK (year > 0)` constraint, the tag tables `categories(name)` and
`coauthors(name)`, and the two junction tables keyed on
(title, author, year, tag) whose foreign keys cascade on book deletion.

Each connector method becomes a pure function on `DB`.  SQL string
comparison with the default BINARY collation is embedded as Lean `String`
equality (which, like BINARY, is case sensitive); `COUNT(1)` over a join
becomes the length of a filtered cross product of the row lists;
`INSERT ... ON CONFLICT DO NOTHING` becomes `upsertRow`; the
`sqlite3.Error` branches that roll back and return a failure value become
the corresponding failure branches of the embedded functions.
-/

/-- A row of the `books` table and the key referenced by the junction
tables: (title, author, year). -/
abbrev BookId := String × String × Int

/-- The `Book` dataclass: frozen, five fields, `categories` and
`coauthors` are optional frozen sets (`Set[str] | None`, default `None`).
Dataclass equality compares all five fields. -/
structure Book where
  title : String
  author : String
  year : Int
  categories : Option (Finset String) := none
  coauthors : Option (Finset String) := none
deriving DecidableEq

/-- The identity triple of a book. -/
def bookId (b : Book) : BookId := (b.title, b.author, b.year)

/-- Byte-wise lexicographic comparison of character lists. -/
def strLeB : List Char → List Char → Bool
  | [], _ => true
  | _ :: _, [] => false
  | a :: as, b :: bs =>
    if a.toNat < b.toNat then true
    else if b.toNat < a.toNat then false
    else strLeB as bs

def strLe (a b : String) : Bool := strLeB a.data b.data

def strLeRel (a b : String) : Prop := strLe a b = true

instance : DecidableRel strLeRel := fun _ _ => instDecidableEqBool _ _

instance : IsTotal String strLeRel where
  total a b := by
    have key : ∀ (as bs : List Char), strLeB as bs = true ∨ strLeB bs as = true := by
      intro as
      induction as with
      | nil => intro bs; left; rfl
      | cons x xs ih =>
          intro bs
          cases bs with
          | nil => right; rfl
          | cons y ys =>
              by_cases h1 : x.toNat < y.toNat
              · left; simp [strLeB, h1]
              · by_cases h2 : y.toNat < x.toNat
                · right; simp [strLeB, h1, h2]
                · rcases ih ys with h | h
                  · left; simp [strLeB, h1, h2, h]
                  · right; simp [strLeB, h1, h2, h]
    exact key a.data b.data

instance : IsTrans String strLeRel where
  trans a b c h1 h2 := by
    have key : ∀ (as bs cs : List Char), strLeB as bs = true →
        strLeB bs cs = true → strLeB as cs = true := by
      intro as
      induction as with
      | nil => intro bs cs g1 g2; rfl
      | cons x xs ih =>
          intro bs cs g1 g2
          cases bs with
          | nil => simp [strLeB] at g1
          | cons y ys =>
              cases cs with
              | nil => simp [strLeB] at g2
              | cons z zs =>
                  simp only [strLeB] at g1 g2 ⊢
                  by_cases hxy : x.toNat < y.toNat
                  · by_cases hyz : y.toNat < z.toNat
                    · simp [show x.toNat < z.toNat by omega]
                    · by_cases hzy : z.toNat < y.toNat
                      · simp [hyz, hzy] at g2
                      · simp [show x.toNat < z.toNat by omega]
                  · by_cases hyx : y.toNat < x.toNat
                    · simp [hxy, hyx] at g1
                    · simp [hxy, hyx] at g1
                      by_cases hyz : y.toNat < z.toNat
                      · simp [show x.toNat < z.toNat by omega]
                      · by_cases hzy : z.toNat < y.toNat
                        · simp [hyz, hzy] at g2
                        · simp [hyz, hzy] at g2
                          simp [show ¬(x.toNat < z.toNat) by omega,
                            show ¬(z.toNat < x.toNat) by omega]
                          exact ih ys zs g1 g2
    exact key a.data b.data c.data h1 h2

instance : IsAntisymm String strLeRel where
  antisymm a b h1 h2 := by
    have key : ∀ (as bs : List Char), strLeB as bs = true →
        strLeB bs as = true → as = bs := by
      intro as
      induction as with
      | nil =>
          intro bs g1 g2
          cases bs with
          | nil => rfl
          | cons y ys => simp [strLeB] at g2
      | cons x xs ih =>
          intro bs g1 g2
          cases bs with
          | nil => simp [strLeB] at g1
          | cons y ys =>
              simp only [strLeB] at g1 g2
              by_cases hxy : x.toNat < y.toNat
              · simp [show ¬(y.toNat < x.toNat) by omega, hxy] at g2
              · by_cases hyx : y.toNat < x.toNat
                · simp [hxy, hyx] at g1
                · simp [hxy, hyx] at g1
                  simp [hyx, hxy] at g2
                  have hn : x.toNat = y.toNat := by omega
                  have hc : x = y := Char.ext (UInt32.ext hn)
                  rw [hc, ih ys g1 g2]
    cases a with | mk da =>
    cases b with | mk db =>
    exact congrArg String.mk (key da db h1 h2)

def multisetSortedList (s : Multiset String) : List String :=
  Quotient.liftOn s (fun l => l.insertionSort strLeRel)
    (fun l1 l2 h => List.eq_of_perm_of_sorted
      ((List.perm_insertionSort strLeRel l1).trans
        (h.trans (List.perm_insertionSort strLeRel l2).symm))
      (List.sorted_insertionSort strLeRel l1)
      (List.sorted_insertionSort strLeRel l2))

/-- Python truthiness on `book.categories` followed by `tuple(...)`:
`None` and the empty set both give the empty tuple, a non-empty frozen
set gives its elements (as a duplicate-free list). -/
def catsOf (b : Book) : List String :=
  match b.categories with
  | none => []
  | some s => multisetSortedList s.val

/-- Python truthiness on `book.coauthors` followed by `tuple(...)`. -/
def coasOf (b : Book) : List String :=
  match b.coauthors with
  | none => []
  | some s => multisetSortedList s.val

/-- `INSERT ... ON CONFLICT DO NOTHING` into a table whose primary key is
the whole row: appends the row unless it is already present. -/
def upsertRow {α : Type} [DecidableEq α] (x : α) (l : List α) : List α :=
  if x ∈ l then l else l ++ [x]

/-- The cross product of two row lists; an SQL join is a filter of it. -/
def crossJoin {α β : Type} : List α → List β → List (α × β)
  | [], _ => []
  | a :: as, bs => bs.map (fun b => (a, b)) ++ crossJoin as bs

/-- The database state: the five tables created by `_INIT_SCRIPT`, each a
list of rows. -/
structure DB where
  books : List BookId
  categories : List String
  coauthors : List String
  jBookCat : List (BookId × String)
  jBookCoauthor : List (BookId × String)
deriving DecidableEq

/-- A freshly initialised database: five empty tables. -/
def emptyDB : DB := ⟨[], [], [], [], []⟩

/-- The `COUNT(1)` computed by `has_book` in full-check mode: the
statement is assembled from `SELECT COUNT(1) FROM books b`, a join with
`j_book_category` on the identity columns (present only when the queried
category tuple is non-empty), a join with `j_book_coauthor` on the
identity columns (present only when the queried coauthor tuple is
non-empty), `WHERE b.title=? AND b.author=? AND b.year=?`, and `IN`
restrictions of the joined tag columns to the queried tuples. -/
def totalEntries (db : DB) (b : Book) : Nat :=
  if catsOf b = [] then
    if coasOf b = [] then
      (db.books.filter (fun r => decide (r = bookId b))).length
    else
      ((crossJoin db.books db.jBookCoauthor).filter
        (fun x => decide (x.2.1 = x.1) && decide (x.1 = bookId b)
          && decide (x.2.2 ∈ coasOf b))).length
  else
    if coasOf b = [] then
      ((crossJoin db.books db.jBookCat).filter
        (fun x => decide (x.2.1 = x.1) && decide (x.1 = bookId b)
          && decide (x.2.2 ∈ catsOf b))).length
    else
      ((crossJoin (crossJoin db.books db.jBookCat) db.jBookCoauthor).filter
        (fun x => decide (x.1.2.1 = x.1.1) && decide (x.2.1 = x.1.1)
          && decide (x.1.1 = bookId b) && decide (x.1.2.2 ∈ catsOf b)
          && decide (x.2.2 ∈ coasOf b))).length

/-- `SQLiteLibraryConnector.has_book`.  Quick mode counts identity
matches in `books` and tests the count positive.  Full mode computes
`totalEntries` and compares it with `i * j` where `i = max(len(cats), 1)`
and `j = max(len(coauthors), 1)`. -/
def has_book (db : DB) (b : Book) (full_check : Bool := false) : Bool :=
  if !full_check then
    decide (0 < (db.books.filter (fun r => decide (r = bookId b))).length)
  else
    decide (totalEntries db b = max (catsOf b).length 1 * max (coasOf b).length 1)

/-- `SQLiteLibraryConnector.add_book`.  Returns early with `False` when a
quick `has_book` finds the identity triple; the `INSERT` into `books`
violates `CHECK (year > 0)` when the year is non-positive, in which case
the `sqlite3.Error` handler rolls the transaction back and returns
`False`; otherwise the book row is inserted and the tags and junction
rows are inserted with `ON CONFLICT DO NOTHING`, and the transaction is
committed with `True` returned. -/
def add_book (db : DB) (b : Book) : Bool × DB :=
  if has_book db b then (false, db)
  else if b.year ≤ 0 then (false, db)
  else
    let qid := bookId b
    let db1 : DB := { db with books := db.books ++ [qid] }
    let db2 : DB := { db1 with
      categories := (catsOf b).foldl (fun acc c => upsertRow c acc) db1.categories
      jBookCat := (catsOf b).foldl (fun acc c => upsertRow (qid, c) acc) db1.jBookCat }
    let db3 : DB := { db2 with
      coauthors := (coasOf b).foldl (fun acc c => upsertRow c acc) db2.coauthors
      jBookCoauthor :=
        (coasOf b).foldl (fun acc c => upsertRow (qid, c) acc) db2.jBookCoauthor }
    (true, db3)

/-- `SQLiteLibraryConnector.remove_book`.  Returns early with `False`
when a quick `has_book` does not find the identity triple; otherwise
deletes from `books` the rows matching the identity triple, which
cascades (per the `ON DELETE CASCADE` foreign keys) to the junction rows
referencing those books, leaves the tag tables untouched, commits, and
returns `True`. -/
def remove_book (db : DB) (b : Book) : Bool × DB :=
  if !has_book db b then (false, db)
  else
    let qid := bookId b
    (true, { db with
      books := db.books.filter (fun r => !decide (r = qid))
      jBookCat := db.jBookCat.filter (fun r => !decide (r.1 = qid))
      jBookCoauthor := db.jBookCoauthor.filter (fun r => !decide (r.1 = qid)) })

/-- `_execute_get_sub_attrs` on `SELECT category FROM j_book_category
WHERE title=? AND author=? AND year=?`: the frozen set of stored
categories of an identity triple. -/
def getCats (db : DB) (qid : BookId) : Finset String :=
  ((db.jBookCat.filter (fun r => decide (r.1 = qid))).map (fun r => r.2)).toFinset

/-- `_execute_get_sub_attrs` on `SELECT coauthor FROM j_book_coauthor
WHERE title=? AND author=? AND year=?`. -/
def getCoauthors (db : DB) (qid : BookId) : Finset String :=
  ((db.jBookCoauthor.filter (fun r => decide (r.1 = qid))).map (fun r => r.2)).toFinset

/-- The `Book` value `_execute_search` builds from a result row: the
identity columns plus the re-joined tag sets (always frozen sets, never
`None`). -/
def hydrate (db : DB) (qid : BookId) : Book :=
  { title := qid.1
    author := qid.2.1
    year := qid.2.2
    categories := some (getCats db qid)
    coauthors := some (getCoauthors db qid) }

/-- `_execute_search`: iterates the rows produced by the search statement
and hydrates each into a `Book`. -/
def execute_search (db : DB) (rows : List BookId) : List Book :=
  rows.map (hydrate db)

/-- `SQLiteLibraryConnector.search_title`:
`SELECT * FROM books WHERE title=?;` (BINARY collation). -/
def search_title (db : DB) (query : String) : List Book :=
  execute_search db (db.books.filter (fun r => decide (r.1 = query)))

/-- `SQLiteLibraryConnector.search_author`:
`SELECT * FROM books WHERE author=?;` (BINARY collation). -/
def search_author (db : DB) (query : String) : List Book :=
  execute_search db (db.books.filter (fun r => decide (r.2.1 = query)))

/-- A year query: either a single year or a (low, high) pair. -/
inductive YearQuery where
  | single (y : Int)
  | range (lo hi : Int)

/-- `SQLiteLibraryConnector.search_year`: `WHERE year=?` for a single
year, `WHERE year BETWEEN ? AND ?` (inclusive on both ends) for a pair. -/
def search_year (db : DB) (query : YearQuery) : List Book :=
  match query with
  | .single y =>
      execute_search db (db.books.filter (fun r => decide (r.2.2 = y)))
  | .range lo hi =>
      execute_search db
        (db.books.filter (fun r => decide (lo ≤ r.2.2) && decide (r.2.2 ≤ hi)))

/-- A tag query: a single tag or a collection of tags. -/
inductive TagQuery where
  | single (t : String)
  | tags (ts : List String)

/-- `SQLiteLibraryConnector.search_category`.  For a collection of tags:
`SELECT DISTINCT b.title, b.author, b.year FROM books b JOIN
j_book_category junction ON` the identity columns `WHERE
junction.category IN (...)`.  For a single tag the same join without
`DISTINCT` and with `WHERE junction.category=?`. -/
def search_category (db : DB) (query : TagQuery) : List Book :=
  match query with
  | .tags ts =>
      execute_search db
        ((((crossJoin db.books db.jBookCat).filter
          (fun x => decide (x.2.1 = x.1) && decide (x.2.2 ∈ ts))).map
            (fun x => x.1)).dedup)
  | .single t =>
      execute_search db
        (((crossJoin db.books db.jBookCat).filter
          (fun x => decide (x.2.1 = x.1) && decide (x.2.2 = t))).map
            (fun x => x.1))

/-- `SQLiteLibraryConnector.search_coauthor`: as `search_category` with
the `j_book_coauthor` junction table. -/
def search_coauthor (db : DB) (query : TagQuery) : List Book :=
  match query with
  | .tags ts =>
      execute_search db
        ((((crossJoin db.books db.jBookCoauthor).filter
          (fun x => decide (x.2.1 = x.1) && decide (x.2.2 ∈ ts))).map
            (fun x => x.1)).dedup)
  | .single t =>
      execute_search db
        (((crossJoin db.books db.jBookCoauthor).filter
          (fun x => decide (x.2.1 = x.1) && decide (x.2.2 = t))).map
            (fun x => x.1))

/-- The primary-key well-formedness every reachable SQLite state enjoys:
`books` has no duplicate identity triple (its primary key) and the
junction tables have no duplicate row (their primary keys cover all
columns). -/
def WF (db : DB) : Prop :=
  db.books.Nodup ∧ db.jBookCat.Nodup ∧ db.jBookCoauthor.Nodup

instance (db : DB) : Decidable (WF db) := by
  unfold WF; infer_instance

/-- Modelled from the spec sentence for the full-mode existence check:
the count of rows of the identity-matched join restricted to the queried
category and coauthor sets, computed dimension-wise — the identity-match
count times, for each present dimension, the count of junction rows of
that identity whose tag lies in the queried set; an absent or empty
dimension contributes no join and a factor of 1. -/
def specJoinCount (db : DB) (b : Book) : Nat :=
  (db.books.filter (fun r => decide (r = bookId b))).length
    * (if catsOf b = [] then 1 else
        (db.jBookCat.filter
          (fun r => decide (r.1 = bookId b) && decide (r.2 ∈ catsOf b))).length)
    * (if coasOf b = [] then 1 else
        (db.jBookCoauthor.filter
          (fun r => decide (r.1 = bookId b) && decide (r.2 ∈ coasOf b))).length)

/-- Modelled from the spec sentence for the full-mode existence check:
the count of matching tag-pairs must equal the categories×coauthors
set-size product, with size floored at 1 when a dimension is absent. -/
def spec_full_check (db : DB) (b : Book) : Bool :=
  decide (specJoinCount db b = max (catsOf b).length 1 * max (coasOf b).length 1)

/-- A sample book with two categories and no coauthors. -/
def bookTA : Book :=
  { title := "T", author := "A", year := 1, categories := some {"a", "b"} }

/-- The database obtained by adding `bookTA` to a fresh database. -/
def dbTA : DB := (add_book emptyDB bookTA).2

/-- A query book sharing the identity of `bookTA` but carrying a strict
subset of its categories. -/
def bookTAsub : Book :=
  { title := "T", author := "A", year := 1, categories := some {"a"} }

/-- A sample book mirroring the repository test fixture. -/
def bookPy : Book :=
  { title := "Python 101", author := "Guido van Rossum", year := 2046,
    categories := some {"python"} }

/-- The database obtained by adding `bookPy` to a fresh database. -/
def dbPy : DB := (add_book emptyDB bookPy).2

/-- The identity triple of `bookPy`. -/
def pyId : BookId := ("Python 101", "Guido van Rossum", 2046)

/-- A book whose year violates the `CHECK (year > 0)` constraint. -/
def bookY0 : Book := { title := "T", author := "A", year := 0 }

theorem mem_crossJoin {α β : Type} (x : α × β) (l₁ : List α) (l₂ : List β) :
    x ∈ crossJoin l₁ l₂ ↔ x.1 ∈ l₁ ∧ x.2 ∈ l₂ := by
  induction l₁ with
  | nil => simp [crossJoin]
  | cons a as ih =>
      cases x with
      | mk xa xb =>
          simp only [crossJoin, List.mem_append, List.mem_map, ih, List.mem_cons]
          constructor
          · rintro (⟨bb, hbb, heq⟩ | ⟨h1, h2⟩)
            · cases heq; exact ⟨Or.inl rfl, hbb⟩
            · exact ⟨Or.inr h1, h2⟩
          · rintro ⟨h1 | h1, h2⟩
            · exact Or.inl ⟨xb, h2, by rw [h1]⟩
            · exact Or.inr ⟨h1, h2⟩

theorem length_filter_map_pair {α β : Type} (a : α) (bs : List β)
    (p : α → Bool) (q : β → Bool) :
    ((bs.map (fun b => (a, b))).filter (fun x => p x.1 && q x.2)).length
      = if p a then (bs.filter q).length else 0 := by
  induction bs with
  | nil => simp
  | cons b t ih =>
      by_cases hp : p a <;> by_cases hq : q b <;>
        simp [List.filter_cons, hp, hq, ih]

theorem length_filter_crossJoin {α β : Type} (l₁ : List α) (l₂ : List β)
    (p : α → Bool) (q : β → Bool) :
    ((crossJoin l₁ l₂).filter (fun x => p x.1 && q x.2)).length
      = (l₁.filter p).length * (l₂.filter q).length := by
  induction l₁ with
  | nil => simp [crossJoin]
  | cons a as ih =>
      simp only [crossJoin, List.filter_append, List.length_append, ih,
        length_filter_map_pair, List.filter_cons]
      by_cases hp : p a <;> simp [hp, Nat.succ_mul]
      all_goals omega

theorem length_filter_eq_of_nodup {α : Type} [DecidableEq α] (l : List α)
    (hl : l.Nodup) (a : α) :
    (l.filter (fun r => decide (r = a))).length = if a ∈ l then 1 else 0 := by
  induction l with
  | nil => simp
  | cons x t ih =>
      rw [List.nodup_cons] at hl
      by_cases hx : x = a
      · subst hx
        simp [List.filter_cons, ih hl.2, hl.1]
      · have hax : ¬ a = x := fun h => hx h.symm
        simp [List.filter_cons, hx, ih hl.2, List.mem_cons, hax]

theorem length_filter_not_add {α : Type} (l : List α) (p : α → Bool) :
    (l.filter (fun r => !p r)).length + (l.filter p).length = l.length := by
  induction l with
  | nil => rfl
  | cons x t ih => by_cases hx : p x <;> simp [List.filter_cons, hx] <;> omega

theorem multisetSortedList_coe (s : Multiset String) :
    (multisetSortedList s : Multiset String) = s := by
  induction s using Quotient.inductionOn with
  | h l => exact Quot.sound (List.perm_insertionSort strLeRel l)

theorem multisetSortedList_nodup (s : Finset String) :
    (multisetSortedList s.val).Nodup := by
  have hs := s.nodup
  rw [← multisetSortedList_coe s.val] at hs
  exact Multiset.coe_nodup.mp hs

theorem catsOf_nodup (b : Book) : (catsOf b).Nodup := by
  cases h : b.categories with
  | none => simp [catsOf, h]
  | some s => simpa [catsOf, h] using multisetSortedList_nodup s

theorem coasOf_nodup (b : Book) : (coasOf b).Nodup := by
  cases h : b.coauthors with
  | none => simp [coasOf, h]
  | some s => simpa [coasOf, h] using multisetSortedList_nodup s

theorem totalEntries_eq_specJoinCount (db : DB) (b : Book) :
    totalEntries db b = specJoinCount db b := by
  unfold totalEntries specJoinCount
  split_ifs with hc ha ha
  · simp
  · have hpred : (fun x : BookId × (BookId × String) =>
        decide (x.2.1 = x.1) && decide (x.1 = bookId b)
          && decide (x.2.2 ∈ coasOf b))
        = (fun x : BookId × (BookId × String) =>
            (fun r : BookId => decide (r = bookId b)) x.1
            && (fun z : BookId × String =>
                 decide (z.1 = bookId b) && decide (z.2 ∈ coasOf b)) x.2) := by
      funext x
      by_cases h : x.1 = bookId b <;>
        simp [h, Bool.and_comm, Bool.and_left_comm, Bool.and_assoc]
    rw [hpred]
    have key := length_filter_crossJoin db.books db.jBookCoauthor
      (fun r : BookId => decide (r = bookId b))
      (fun z : BookId × String => decide (z.1 = bookId b) && decide (z.2 ∈ coasOf b))
    simpa using key
  · have hpred : (fun x : BookId × (BookId × String) =>
        decide (x.2.1 = x.1) && decide (x.1 = bookId b)
          && decide (x.2.2 ∈ catsOf b))
        = (fun x : BookId × (BookId × String) =>
            (fun r : BookId => decide (r = bookId b)) x.1
            && (fun z : BookId × String =>
                 decide (z.1 = bookId b) && decide (z.2 ∈ catsOf b)) x.2) := by
      funext x
      by_cases h : x.1 = bookId b <;>
        simp [h, Bool.and_comm, Bool.and_left_comm, Bool.and_assoc]
    rw [hpred]
    have key := length_filter_crossJoin db.books db.jBookCat
      (fun r : BookId => decide (r = bookId b))
      (fun z : BookId × String => decide (z.1 = bookId b) && decide (z.2 ∈ catsOf b))
    simpa using key
  · have hpred : (fun x : (BookId × (BookId × String)) × (BookId × String) =>
        decide (x.1.2.1 = x.1.1) && decide (x.2.1 = x.1.1)
          && decide (x.1.1 = bookId b) && decide (x.1.2.2 ∈ catsOf b)
          && decide (x.2.2 ∈ coasOf b))
        = (fun x : (BookId × (BookId × String)) × (BookId × String) =>
            (fun y : BookId × (BookId × String) =>
              (fun r : BookId => decide (r = bookId b)) y.1
              && (fun z : BookId × String =>
                   decide (z.1 = bookId b) && decide (z.2 ∈ catsOf b)) y.2) x.1
            && (fun z : BookId × String =>
                 decide (z.1 = bookId b) && decide (z.2 ∈ coasOf b)) x.2) := by
      funext x
      by_cases h : x.1.1 = bookId b <;>
        simp [h, Bool.and_comm, Bool.and_left_comm, Bool.and_assoc]
    rw [hpred]
    have key1 := length_filter_crossJoin (crossJoin db.books db.jBookCat)
      db.jBookCoauthor
      (fun y : BookId × (BookId × String) =>
        (fun r : BookId => decide (r = bookId b)) y.1
        && (fun z : BookId × String =>
             decide (z.1 = bookId b) && decide (z.2 ∈ catsOf b)) y.2)
      (fun z : BookId × String => decide (z.1 = bookId b) && decide (z.2 ∈ coasOf b))
    have key2 := length_filter_crossJoin db.books db.jBookCat
      (fun r : BookId => decide (r = bookId b))
      (fun z : BookId × String => decide (z.1 = bookId b) && decide (z.2 ∈ catsOf b))
    rw [key1, key2]

theorem has_book_quick_iff (db : DB) (b : Book) :
    has_book db b = true ↔ bookId b ∈ db.books := by
  simp only [has_book, Bool.not_false, if_true, decide_eq_true_eq]
  constructor
  · intro h
    obtain ⟨x, hx⟩ := List.exists_mem_of_ne_nil _ (List.length_pos.mp h)
    obtain ⟨hx1, hx2⟩ := List.mem_filter.mp hx
    exact (of_decide_eq_true hx2) ▸ hx1
  · intro h
    exact List.length_pos_of_mem (List.mem_filter.mpr ⟨h, by simp⟩)

theorem filter_and_split {α : Type} (l : List α) (p q : α → Bool) :
    l.filter (fun a => p a && q a) = (l.filter p).filter q := by
  induction l with
  | nil => rfl
  | cons x t ih =>
      by_cases hp : p x <;> by_cases hq : q x <;>
        simp [List.filter_cons, hp, hq, ih]

theorem foldl_upsertRow_toFinset {α β : Type} [DecidableEq β] (f : α → β)
    (l : List α) (init : List β) :
    (l.foldl (fun acc c => upsertRow (f c) acc) init).toFinset
      = init.toFinset ∪ (l.map f).toFinset := by
  induction l generalizing init with
  | nil => simp
  | cons c t ih =>
      simp only [List.foldl_cons, List.map_cons, List.toFinset_cons]
      rw [ih]
      have hstep : (upsertRow (f c) init).toFinset = insert (f c) init.toFinset := by
        unfold upsertRow
        split_ifs with h
        · rw [Finset.insert_eq_self.mpr (by simpa using h)]
        · rw [List.toFinset_append, Finset.union_comm]
          simp [Finset.insert_eq]
      rw [hstep, Finset.insert_union, Finset.union_insert]

theorem foldl_upsertRow_nodup {α β : Type} [DecidableEq β] (f : α → β)
    (l : List α) (init : List β) (h : init.Nodup) :
    (l.foldl (fun acc c => upsertRow (f c) acc) init).Nodup := by
  induction l generalizing init with
  | nil => simpa
  | cons c t ih =>
      simp only [List.foldl_cons]
      apply ih
      unfold upsertRow
      split_ifs with hc
      · exact h
      · simp [List.nodup_append, h, hc]

theorem foldl_upsertRow_toFinset_id {β : Type} [DecidableEq β]
    (l : List β) (init : List β) :
    (l.foldl (fun acc c => upsertRow c acc) init).toFinset
      = init.toFinset ∪ l.toFinset := by
  have h := foldl_upsertRow_toFinset (fun c => c) l init
  simpa using h

theorem foldl_upsertRow_nodup_id {β : Type} [DecidableEq β]
    (l : List β) (init : List β) (h : init.Nodup) :
    (l.foldl (fun acc c => upsertRow c acc) init).Nodup := by
  have h2 := foldl_upsertRow_nodup (fun c => c) l init h
  simpa using h2

theorem length_filter_tag_mem (L : List (BookId × String)) (hL : L.Nodup)
    (qid : BookId) (Q : List String) :
    (L.filter (fun r => decide (r.1 = qid) && decide (r.2 ∈ Q))).length
      = (((L.filter (fun r => decide (r.1 = qid))).map (fun r => r.2)).toFinset
          ∩ Q.toFinset).card := by
  rw [filter_and_split]
  have hF : (L.filter (fun r => decide (r.1 = qid))).Nodup :=
    hL.filter (fun r => decide (r.1 = qid))
  have hmap : (((L.filter (fun r => decide (r.1 = qid))).map
        (fun r : BookId × String => r.2)).filter (fun t => decide (t ∈ Q)))
      = ((L.filter (fun r => decide (r.1 = qid))).filter
          (fun r => decide (r.2 ∈ Q))).map (fun r : BookId × String => r.2) := by
    rw [List.filter_map]
    rfl
  have hlen : ((L.filter (fun r => decide (r.1 = qid))).filter
        (fun r => decide (r.2 ∈ Q))).length
      = (((L.filter (fun r => decide (r.1 = qid))).map
          (fun r : BookId × String => r.2)).filter (fun t => decide (t ∈ Q))).length := by
    rw [hmap, List.length_map]
  rw [hlen]
  have hG : ((L.filter (fun r => decide (r.1 = qid))).map
      (fun r : BookId × String => r.2)).Nodup := by
    apply hF.map_on
    intro x hx y hy h2
    have hx1 : x.1 = qid := of_decide_eq_true (List.mem_filter.mp hx).2
    have hy1 : y.1 = qid := of_decide_eq_true (List.mem_filter.mp hy).2
    exact Prod.ext_iff.mpr ⟨hx1.trans hy1.symm, h2⟩
  have h5 := List.toFinset_card_of_nodup
    (hG.filter (fun t => decide (t ∈ Q)))
  rw [← h5, List.toFinset_filter]
  congr 1
  rw [← Finset.filter_mem_eq_inter]
  apply Finset.filter_congr
  intro t ht
  simp

theorem inter_card_eq_iff_subset {α : Type} [DecidableEq α] (S T : Finset α) :
    (S ∩ T).card = T.card ↔ T ⊆ S := by
  constructor
  · intro h
    have heq : S ∩ T = T :=
      Finset.eq_of_subset_of_card_le Finset.inter_subset_right (le_of_eq h.symm)
    exact Finset.inter_eq_right.mp heq
  · intro h
    rw [Finset.inter_eq_right.mpr h]

theorem mul_eq_mul_iff_of_le (a b i j : Nat) (ha : a ≤ i) (hb : b ≤ j)
    (hi : 0 < i) (hj : 0 < j) : a * b = i * j ↔ a = i ∧ b = j := by
  constructor
  · intro h
    constructor
    · by_contra hne
      have hlt : a < i := lt_of_le_of_ne ha hne
      have h1 : a * b ≤ a * j := Nat.mul_le_mul_left a hb
      have h2 : a * j < i * j := (Nat.mul_lt_mul_right hj).mpr hlt
      omega
    · by_contra hne
      have hlt : b < j := lt_of_le_of_ne hb hne
      have h1 : a * b ≤ i * b := Nat.mul_le_mul_right b ha
      have h2 : i * b < i * j := (Nat.mul_lt_mul_left hi).mpr hlt
      omega
  · rintro ⟨rfl, rfl⟩
    rfl

/-- C6: `has_book` with `full_check=True` computes exactly the spec's
counting algorithm — it returns true if and only if the count of rows of
the identity-matched join restricted to the queried category and
coauthor sets equals `i * j`, where `i` and `j` are the queried set sizes
floored at 1 and an absent or empty dimension contributes no join and a
factor of 1. -/
theorem has_book_full_check_eq_spec_count (db : DB) (b : Book) :
    has_book db b true = spec_full_check db b := by
  simp [has_book, spec_full_check, totalEntries_eq_specJoinCount]

/-- C3: persistence mutations never propagate a storage-layer error: a
failed `add_book` or `remove_book` reports `false` and leaves the
database state unchanged, and in particular adding a book whose year
violates `CHECK (year > 0)` returns `false` and inserts no row in any
table. -/
theorem persistence_failure_preserves_state (db : DB) (b : Book) :
    ((add_book db b).1 = false → (add_book db b).2 = db) ∧
    ((remove_book db b).1 = false → (remove_book db b).2 = db) ∧
    (b.year ≤ 0 → (add_book db b).1 = false ∧ (add_book db b).2 = db) := by
  refine ⟨?_, ?_, ?_⟩
  · by_cases h1 : has_book db b
    · simp [add_book, h1]
    · by_cases h2 : b.year ≤ 0
      · simp [add_book, h1, h2]
      · simp [add_book, h1, h2]
  · by_cases h1 : has_book db b <;> simp [remove_book, h1]
  · intro hy
    by_cases h1 : has_book db b <;> simp [add_book, h1, hy]

/-- Witness for C3 at a concrete input: adding a book with year 0 to a
fresh database fails and changes nothing. -/
theorem persistence_failure_preserves_state_witness :
    (add_book emptyDB bookY0).1 = false ∧ (add_book emptyDB bookY0).2 = emptyDB :=
  (persistence_failure_preserves_state emptyDB bookY0).2.2 (by decide)

/-- C7: a successful `add_book` makes the quick existence check true on
the resulting state, and a successful `remove_book` makes it false. -/
theorem add_remove_quick_round_trip (db : DB) (b : Book) :
    ((add_book db b).1 = true → has_book (add_book db b).2 b = true) ∧
    ((remove_book db b).1 = true → has_book (remove_book db b).2 b = false) := by
  constructor
  · intro h
    by_cases h1 : has_book db b
    · simp [add_book, h1] at h
    · by_cases h2 : b.year ≤ 0
      · simp [add_book, h1, h2] at h
      · rw [has_book_quick_iff]
        simp [add_book, h1, h2]
  · intro h
    by_cases h1 : has_book db b
    · have hnot : ¬ (bookId b ∈ (remove_book db b).2.books) := by
        simp [remove_book, h1, List.mem_filter]
      rw [← Bool.not_eq_true, has_book_quick_iff]
      exact hnot
    · simp [remove_book, h1] at h

/-- Witness for C7 at a concrete input: after adding `bookPy` to a fresh
database the quick check finds it, and after removing it from `dbPy` the
quick check no longer does. -/
theorem add_remove_quick_round_trip_witness :
    has_book (add_book emptyDB bookPy).2 bookPy = true ∧
    has_book (remove_book dbPy bookPy).2 bookPy = false :=
  ⟨(add_remove_quick_round_trip emptyDB bookPy).1 (by decide),
   (add_remove_quick_round_trip dbPy bookPy).2 (by decide)⟩

/-- Counterexample to C4 as stated: `emptyDB` stores no book with the
identity triple of `bookY0`, yet `add_book` does not insert it — it
returns `false` and leaves the state unchanged, because the year 0
violates the `CHECK (year > 0)` constraint. -/
theorem add_book_rejects_nonpositive_year :
    emptyDB.books = [] ∧ bookY0.year = 0 ∧ add_book emptyDB bookY0 = (false, emptyDB) := by
  refine ⟨rfl, rfl, ?_⟩
  decide

/-- C4 (amended): adding a book whose identity triple is already stored
returns `false` and leaves the whole state unchanged; otherwise, provided
the year is positive, `add_book` succeeds, appends exactly the one book
row, and upserts the category/coauthor tags and junction rows
idempotently — the tables grow by set union and acquire no duplicate
rows. -/
theorem add_book_spec (db : DB) (b : Book) :
    (has_book db b = true → add_book db b = (false, db)) ∧
    (has_book db b = false → 0 < b.year →
      (add_book db b).1 = true ∧
      (add_book db b).2.books = db.books ++ [bookId b] ∧
      (add_book db b).2.categories.toFinset
        = db.categories.toFinset ∪ (catsOf b).toFinset ∧
      (add_book db b).2.coauthors.toFinset
        = db.coauthors.toFinset ∪ (coasOf b).toFinset ∧
      (add_book db b).2.jBookCat.toFinset
        = db.jBookCat.toFinset ∪ ((catsOf b).map (fun c => (bookId b, c))).toFinset ∧
      (add_book db b).2.jBookCoauthor.toFinset
        = db.jBookCoauthor.toFinset
            ∪ ((coasOf b).map (fun c => (bookId b, c))).toFinset ∧
      (db.categories.Nodup → (add_book db b).2.categories.Nodup) ∧
      (db.coauthors.Nodup → (add_book db b).2.coauthors.Nodup) ∧
      (db.jBookCat.Nodup → (add_book db b).2.jBookCat.Nodup) ∧
      (db.jBookCoauthor.Nodup → (add_book db b).2.jBookCoauthor.Nodup)) := by
  constructor
  · intro h
    simp [add_book, h]
  · intro h hy
    have hy2 : ¬ b.year ≤ 0 := by omega
    have hred : add_book db b
        = (true,
            ⟨db.books ++ [bookId b],
             (catsOf b).foldl (fun acc c => upsertRow c acc) db.categories,
             (coasOf b).foldl (fun acc c => upsertRow c acc) db.coauthors,
             (catsOf b).foldl (fun acc c => upsertRow (bookId b, c) acc) db.jBookCat,
             (coasOf b).foldl
               (fun acc c => upsertRow (bookId b, c) acc) db.jBookCoauthor⟩) := by
      simp [add_book, h, hy2]
    rw [hred]
    exact ⟨rfl, rfl,
      foldl_upsertRow_toFinset_id _ _,
      foldl_upsertRow_toFinset_id _ _,
      foldl_upsertRow_toFinset _ _ _,
      foldl_upsertRow_toFinset _ _ _,
      fun hn => foldl_upsertRow_nodup_id _ _ hn,
      fun hn => foldl_upsertRow_nodup_id _ _ hn,
      fun hn => foldl_upsertRow_nodup _ _ _ hn,
      fun hn => foldl_upsertRow_nodup _ _ _ hn⟩

/-- Witness for C4 (amended) at a concrete input: adding `bookPy` twice —
the first add succeeds and appends the row, the second add fails and
leaves `dbPy` unchanged. -/
theorem add_book_spec_witness :
    ((add_book emptyDB bookPy).1 = true
      ∧ (add_book emptyDB bookPy).2.books = emptyDB.books ++ [bookId bookPy])
    ∧ add_book dbPy bookPy = (false, dbPy) :=
  ⟨⟨((add_book_spec emptyDB bookPy).2 (by decide) (by decide)).1,
    ((add_book_spec emptyDB bookPy).2 (by decide) (by decide)).2.1⟩,
   (add_book_spec dbPy bookPy).1 (by decide)⟩

/-- C5: `remove_book` fails and preserves the state when the identity
triple is absent; when present it succeeds, removes exactly the matching
books row (one row when the primary key holds) and all junction rows
referencing that identity, and leaves the two tag tables untouched. -/
theorem remove_book_spec (db : DB) (b : Book) :
    (has_book db b = false → remove_book db b = (false, db)) ∧
    (has_book db b = true →
      (remove_book db b).1 = true ∧
      (remove_book db b).2.books
        = db.books.filter (fun r => !decide (r = bookId b)) ∧
      (remove_book db b).2.jBookCat
        = db.jBookCat.filter (fun r => !decide (r.1 = bookId b)) ∧
      (remove_book db b).2.jBookCoauthor
        = db.jBookCoauthor.filter (fun r => !decide (r.1 = bookId b)) ∧
      (remove_book db b).2.categories = db.categories ∧
      (remove_book db b).2.coauthors = db.coauthors ∧
      (db.books.Nodup → ((remove_book db b).2.books).length + 1 = db.books.length)) := by
  constructor
  · intro h
    simp [remove_book, h]
  · intro h
    have hred : remove_book db b
        = (true,
            ⟨db.books.filter (fun r => !decide (r = bookId b)),
             db.categories,
             db.coauthors,
             db.jBookCat.filter (fun r => !decide (r.1 = bookId b)),
             db.jBookCoauthor.filter (fun r => !decide (r.1 = bookId b))⟩) := by
      simp [remove_book, h]
    rw [hred]
    refine ⟨rfl, rfl, rfl, rfl, rfl, rfl, ?_⟩
    intro hn
    have hmem : bookId b ∈ db.books := (has_book_quick_iff db b).mp h
    have h1 := length_filter_not_add db.books (fun r => decide (r = bookId b))
    have h2 := length_filter_eq_of_nodup db.books hn (bookId b)
    rw [if_pos hmem] at h2
    rw [h2] at h1
    exact h1

/-- Witness for C5 at a concrete input: removing `bookPy` from `dbPy`
succeeds and leaves the tag tables untouched, while removing it from a
fresh database fails and changes nothing. -/
theorem remove_book_spec_witness :
    ((remove_book dbPy bookPy).1 = true
      ∧ (remove_book dbPy bookPy).2.categories = dbPy.categories)
    ∧ remove_book emptyDB bookPy = (false, emptyDB) :=
  ⟨⟨((remove_book_spec dbPy bookPy).2 (by decide)).1,
    ((remove_book_spec dbPy bookPy).2 (by decide)).2.2.2.2.1⟩,
   (remove_book_spec emptyDB bookPy).1 (by decide)⟩

/-- C1 (amended): on a well-formed state storing the queried identity
triple, the full check is true exactly when the queried category and
coauthor sets (treating `None` as empty) are subsets of the stored tag
sets; in particular it is false whenever a queried tag is not stored, but
true whenever the stored sets are a superset of the queried ones. -/
theorem has_book_full_subset_characterization (db : DB) (b : Book)
    (hwf : WF db) (hmem : bookId b ∈ db.books) :
    has_book db b true = true ↔
      ((catsOf b).toFinset ⊆ getCats db (bookId b)
        ∧ (coasOf b).toFinset ⊆ getCoauthors db (bookId b)) := by
  obtain ⟨hbk, hjc, hja⟩ := hwf
  have hb1 : (db.books.filter (fun r => decide (r = bookId b))).length = 1 := by
    rw [length_filter_eq_of_nodup db.books hbk (bookId b), if_pos hmem]
  have hh : has_book db b true
      = decide (totalEntries db b
          = max (catsOf b).length 1 * max (coasOf b).length 1) := by
    simp [has_book]
  rw [hh, totalEntries_eq_specJoinCount, decide_eq_true_eq]
  unfold specJoinCount
  rw [hb1, one_mul]
  have hcC := length_filter_tag_mem db.jBookCat hjc (bookId b) (catsOf b)
  have haC := length_filter_tag_mem db.jBookCoauthor hja (bookId b) (coasOf b)
  have hlenC : (catsOf b).toFinset.card = (catsOf b).length :=
    List.toFinset_card_of_nodup (catsOf_nodup b)
  have hlenA : (coasOf b).toFinset.card = (coasOf b).length :=
    List.toFinset_card_of_nodup (coasOf_nodup b)
  by_cases hc : catsOf b = [] <;> by_cases ha : coasOf b = []
  · simp [hc, ha]
  · have hposA : 0 < (coasOf b).length := List.length_pos.mpr ha
    rw [if_pos hc, if_neg ha, one_mul, haC]
    simp only [hc, List.toFinset_nil, Finset.empty_subset, true_and,
      List.length_nil, Nat.zero_max, one_mul]
    rw [Nat.max_eq_left hposA, ← hlenA]
    exact inter_card_eq_iff_subset _ _
  · have hposC : 0 < (catsOf b).length := List.length_pos.mpr hc
    rw [if_neg hc, if_pos ha, mul_one, hcC]
    simp only [ha, List.toFinset_nil, Finset.empty_subset, and_true,
      List.length_nil, Nat.zero_max, mul_one]
    rw [Nat.max_eq_left hposC, ← hlenC]
    exact inter_card_eq_iff_subset _ _
  · have hposC : 0 < (catsOf b).length := List.length_pos.mpr hc
    have hposA : 0 < (coasOf b).length := List.length_pos.mpr ha
    rw [if_neg hc, if_neg ha, hcC, haC,
      Nat.max_eq_left hposC, Nat.max_eq_left hposA, ← hlenC, ← hlenA]
    rw [mul_eq_mul_iff_of_le _ _ _ _
      (Finset.card_le_card Finset.inter_subset_right)
      (Finset.card_le_card Finset.inter_subset_right)
      (by omega) (by omega)]
    exact and_congr (inter_card_eq_iff_subset _ _) (inter_card_eq_iff_subset _ _)

/-- Witness for C1 (amended) at a concrete input: the queried set of
`bookTAsub` is a subset of the stored set of `dbTA`, and the full check
indeed answers true. -/
theorem has_book_full_subset_characterization_witness :
    has_book dbTA bookTAsub true = true :=
  (has_book_full_subset_characterization dbTA bookTAsub
      (by decide) (by decide)).mpr ⟨by decide, by decide⟩

/-- Counterexample to C1 as stated: `dbTA` stores the identity triple of
`bookTAsub` with category set {"a", "b"}, the queried category set {"a"}
differs from it (being a strict subset), yet the full check returns true
instead of the claimed false. -/
theorem has_book_full_check_accepts_missing_tags :
    bookId bookTAsub ∈ dbTA.books
    ∧ getCats dbTA (bookId bookTAsub) = ({"a", "b"} : Finset String)
    ∧ bookTAsub.categories = some ({"a"} : Finset String)
    ∧ decide (({"a"} : Finset String) = ({"a", "b"} : Finset String)) = false
    ∧ has_book dbTA bookTAsub true = true := by
  refine ⟨by decide, by decide, rfl, by decide, by decide⟩

/-- C2, evaluated at the failing input: the stored title "Python 101" is
not found by `search_title` under its upper-case variant, nor the stored
author or category under theirs, because the SQL equality comparisons use
the case-sensitive BINARY collation; the repository's own tests assert
the opposite. -/
theorem search_is_case_sensitive :
    (search_title dbPy "Python 101").length = 1
    ∧ search_title dbPy "PYTHON 101" = []
    ∧ search_author dbPy "GUIDO VAN ROSSUM" = []
    ∧ search_category dbPy (.single "PYTHON") = [] := by
  refine ⟨by decide, by decide, by decide, by decide⟩

/-- C8: `search_year` with a single year returns exactly the hydrated
stored books of that year; with a (low, high) pair exactly those with
low ≤ year ≤ high, both endpoints inclusive, so a range disjoint from all
stored years returns the empty sequence. -/
theorem search_year_spec (db : DB) (bq : Book) (y lo hi : Int) :
    (bq ∈ search_year db (.single y)
      ↔ ∃ r, r ∈ db.books ∧ r.2.2 = y ∧ bq = hydrate db r) ∧
    (bq ∈ search_year db (.range lo hi)
      ↔ ∃ r, r ∈ db.books ∧ lo ≤ r.2.2 ∧ r.2.2 ≤ hi ∧ bq = hydrate db r) ∧
    ((∀ r ∈ db.books, r.2.2 < lo ∨ hi < r.2.2)
      → search_year db (.range lo hi) = []) := by
  refine ⟨?_, ?_, ?_⟩
  · simp only [search_year, execute_search]
    constructor
    · intro h
      obtain ⟨r, hr, heq⟩ := List.mem_map.mp h
      obtain ⟨hr1, hr2⟩ := List.mem_filter.mp hr
      exact ⟨r, hr1, of_decide_eq_true hr2, heq.symm⟩
    · rintro ⟨r, hr1, hr2, rfl⟩
      exact List.mem_map_of_mem _ (List.mem_filter.mpr ⟨hr1, by simp [hr2]⟩)
  · simp only [search_year, execute_search]
    constructor
    · intro h
      obtain ⟨r, hr, heq⟩ := List.mem_map.mp h
      obtain ⟨hr1, hr2⟩ := List.mem_filter.mp hr
      rw [Bool.and_eq_true] at hr2
      obtain ⟨hlo, hhi⟩ := hr2
      exact ⟨r, hr1, of_decide_eq_true hlo, of_decide_eq_true hhi, heq.symm⟩
    · rintro ⟨r, hr1, hlo, hhi, rfl⟩
      exact List.mem_map_of_mem _
        (List.mem_filter.mpr ⟨hr1, by simp [hlo, hhi]⟩)
  · intro hall
    simp only [search_year, execute_search]
    have hnil : db.books.filter
        (fun r => decide (lo ≤ r.2.2) && decide (r.2.2 ≤ hi)) = [] := by
      rw [List.filter_eq_nil_iff]
      intro r hr
      have := hall r hr
      simp only [Bool.and_eq_true, decide_eq_true_eq, not_and]
      intro h1
      omega
    rw [hnil]
    rfl

/-- Witness for C8 at a concrete input: the stored year 2046 lies in the
range (1901, 2095), which therefore finds the book, while the disjoint
range (1000, 1999) returns the empty sequence. -/
theorem search_year_spec_witness :
    hydrate dbPy pyId ∈ search_year dbPy (.range 1901 2095)
    ∧ search_year dbPy (.range 1000 1999) = [] :=
  ⟨(search_year_spec dbPy (hydrate dbPy pyId) 0 1901 2095).2.1.mpr
      ⟨pyId, by decide, by decide, by decide, rfl⟩,
   (search_year_spec dbPy (hydrate dbPy pyId) 0 1000 1999).2.2 (by decide)⟩

/-- C9: searching a collection of tags returns the union — every stored
book holding at least one queried tag appears in the result — and the
result is deduplicated by book identity: the list of result identities
has no duplicate, for categories and coauthors alike. -/
theorem search_tags_union_dedup (db : DB) (ts : List String) :
    (∀ r ∈ db.books, (∃ t, t ∈ ts ∧ (r, t) ∈ db.jBookCat) →
      hydrate db r ∈ search_category db (.tags ts)) ∧
    ((search_category db (.tags ts)).map bookId).Nodup ∧
    (∀ r ∈ db.books, (∃ t, t ∈ ts ∧ (r, t) ∈ db.jBookCoauthor) →
      hydrate db r ∈ search_coauthor db (.tags ts)) ∧
    ((search_coauthor db (.tags ts)).map bookId).Nodup := by
  refine ⟨?_, ?_, ?_, ?_⟩
  · rintro r hr ⟨t, ht, hjt⟩
    simp only [search_category, execute_search]
    apply List.mem_map_of_mem
    rw [List.mem_dedup]
    exact List.mem_map.mpr
      ⟨(r, (r, t)),
       List.mem_filter.mpr ⟨(mem_crossJoin _ _ _).mpr ⟨hr, hjt⟩, by simp [ht]⟩,
       rfl⟩
  · simp only [search_category, execute_search, List.map_map]
    rw [show bookId ∘ hydrate db = id from funext fun qid => rfl, List.map_id]
    exact List.nodup_dedup _
  · rintro r hr ⟨t, ht, hjt⟩
    simp only [search_coauthor, execute_search]
    apply List.mem_map_of_mem
    rw [List.mem_dedup]
    exact List.mem_map.mpr
      ⟨(r, (r, t)),
       List.mem_filter.mpr ⟨(mem_crossJoin _ _ _).mpr ⟨hr, hjt⟩, by simp [ht]⟩,
       rfl⟩
  · simp only [search_coauthor, execute_search, List.map_map]
    rw [show bookId ∘ hydrate db = id from funext fun qid => rfl, List.map_id]
    exact List.nodup_dedup _

/-- Witness for C9 at a concrete input: the book of `dbTA` holds the tag
"a" of the queried set, so it appears in the category search result. -/
theorem search_tags_union_dedup_witness :
    hydrate dbTA ("T", "A", 1) ∈ search_category dbTA (.tags ["a", "zz"]) :=
  (search_tags_union_dedup dbTA ["a", "zz"]).1 ("T", "A", 1) (by decide)
    ⟨"a", by decide, by decide⟩

/-- C10: every book returned by any search operation is fully hydrated —
its categories and coauthors fields are frozen sets, never `None` — and
is therefore unequal, as a dataclass value, to any book one of whose tag
fields is `None`. -/
theorem search_results_fully_hydrated (db : DB) (q : String) (yq : YearQuery)
    (tq : TagQuery) (bq : Book) :
    (bq ∈ search_title db q ∨ bq ∈ search_author db q ∨ bq ∈ search_year db yq
      ∨ bq ∈ search_category db tq ∨ bq ∈ search_coauthor db tq) →
    bq.categories.isSome = true ∧ bq.coauthors.isSome = true ∧
      ∀ b2 : Book, b2.categories = none ∨ b2.coauthors = none → bq ≠ b2 := by
  intro h
  have hex : ∃ r, bq = hydrate db r := by
    rcases h with h | h | h | h | h
    · obtain ⟨r, _, heq⟩ := List.mem_map.mp h
      exact ⟨r, heq.symm⟩
    · obtain ⟨r, _, heq⟩ := List.mem_map.mp h
      exact ⟨r, heq.symm⟩
    · cases yq with
      | single y =>
          obtain ⟨r, _, heq⟩ := List.mem_map.mp h
          exact ⟨r, heq.symm⟩
      | range lo hi =>
          obtain ⟨r, _, heq⟩ := List.mem_map.mp h
          exact ⟨r, heq.symm⟩
    · cases tq with
      | single t =>
          obtain ⟨r, _, heq⟩ := List.mem_map.mp h
          exact ⟨r, heq.symm⟩
      | tags ts =>
          obtain ⟨r, _, heq⟩ := List.mem_map.mp h
          exact ⟨r, heq.symm⟩
    · cases tq with
      | single t =>
          obtain ⟨r, _, heq⟩ := List.mem_map.mp h
          exact ⟨r, heq.symm⟩
      | tags ts =>
          obtain ⟨r, _, heq⟩ := List.mem_map.mp h
          exact ⟨r, heq.symm⟩
  obtain ⟨r, rfl⟩ := hex
  refine ⟨rfl, rfl, ?_⟩
  intro b2 hb2 heq
  rcases hb2 with hb2 | hb2
  · have hfield : (hydrate db r).categories = b2.categories := by rw [heq]
    rw [hb2] at hfield
    exact Option.noConfusion hfield
  · have hfield : (hydrate db r).coauthors = b2.coauthors := by rw [heq]
    rw [hb2] at hfield
    exact Option.noConfusion hfield

/-- Witness for C10 at a concrete input: the hydrated result of searching
the stored title has frozen-set tag fields, although `bookPy` itself was
added with coauthors `None`. -/
theorem search_results_fully_hydrated_witness :
    (hydrate dbPy pyId).categories.isSome = true
    ∧ (hydrate dbPy pyId).coauthors.isSome = true :=
  ⟨(search_results_fully_hydrated dbPy "Python 101" (.single 0) (.single "x")
      (hydrate dbPy pyId) (Or.inl (by decide))).1,
   (search_results_fully_hydrated dbPy "Python 101" (.single 0) (.single "x")
      (hydrate dbPy pyId) (Or.inl (by decide))).2.1⟩
